import Mathlib

/-!
Verification of the a1111-ollama-extension repository: a shallow embedding of
the persistence layer (scripts/database.py, class OllamaDatabase) and of the
HTTP client (scripts/ollama_api.py, class OllamaAPI), with theorems settling
the behavioural claims made by the specification.

Conventions of the embedding:
* SQLite tables are lists of row structures; each SQL statement becomes a pure
  transformation of such a list.
* Timestamps are ISO-8601 strings, compared with the lexicographic order on
  String (SQLite compares TEXT columns bytewise, which for these strings is
  the same order).
* Python exceptions are an explicit error type `PyErr`; a Python function that
  may raise is embedded as a function into `Except PyErr _`.
* Python truthiness of optional arguments (`if model_name:` treats both `None`
  and the empty string as false) is embedded explicitly.
-/

namespace OllamaExt

/-- Python exception kinds relevant to this code base. -/
inductive PyErr where
  | valueError
  | typeError
  | keyError
  | attributeError
  | connectionError
  | timeoutError
  | runtimeError
deriving Repr, DecidableEq

/-! ## Settings table (database.py, settings: key PRIMARY KEY, value, updated_at) -/

structure SettingRow where
  key : String
  value : String
  updated_at : String
deriving Repr, DecidableEq

/-- `set_setting` (database.py lines 209-225): `INSERT OR REPLACE INTO settings
(key, value, updated_at) VALUES (?, ?, ?)`. INSERT OR REPLACE on the primary
key deletes any conflicting row and inserts the new one; returns True on
success. -/
def set_setting (st : List SettingRow) (k v ts : String) : Bool × List SettingRow :=
  (true, st.filter (fun r => r.key != k) ++ [⟨k, v, ts⟩])

/-- `get_setting` (database.py lines 197-207): `SELECT value FROM settings
WHERE key = ?`; returns the value when a row exists, otherwise the supplied
default. -/
def get_setting (st : List SettingRow) (k : String) (default_value : Option String) :
    Option String :=
  match st.find? (fun r => r.key == k) with
  | some r => some r.value
  | none => default_value

/-! ## Prompts table (database.py, prompts: prompt_text UNIQUE, category,
usage_count DEFAULT 0, last_used, created_at) -/

structure PromptRow where
  prompt_text : String
  category : Option String
  usage_count : Nat
  last_used : Option String
  created_at : String
deriving Repr, DecidableEq

/-- The UPDATE step of `save_prompt`: bump usage_count and refresh last_used on
every row whose prompt_text matches. -/
def bumpPrompt (text ts : String) (r : PromptRow) : PromptRow :=
  if r.prompt_text == text then
    { r with usage_count := r.usage_count + 1, last_used := some ts }
  else r

/-- `save_prompt` (database.py lines 151-174): first `INSERT OR IGNORE INTO
prompts (prompt_text, category, created_at) VALUES (?, ?, ?)` (usage_count
takes the declared default 0, last_used stays NULL; the insert is ignored when
a row with the same prompt_text exists), then `UPDATE prompts SET usage_count =
usage_count + 1, last_used = ? WHERE prompt_text = ?`; returns True on
success. -/
def save_prompt (st : List PromptRow) (text : String) (category : Option String)
    (ts : String) : Bool × List PromptRow :=
  let st1 := if st.any (fun r => r.prompt_text == text) then st
             else st ++ [⟨text, category, 0, none, ts⟩]
  (true, st1.map (bumpPrompt text ts))

/-- Run a sequence of `save_prompt` calls (text, category, timestamp) starting
from a given store. -/
def save_prompts (st : List PromptRow) (ops : List (String × Option String × String)) :
    List PromptRow :=
  ops.foldl (fun acc op => (save_prompt acc op.1 op.2.1 op.2.2).2) st

theorem bumpPrompt_text (text ts : String) (r : PromptRow) :
    (bumpPrompt text ts r).prompt_text = r.prompt_text := by
  unfold bumpPrompt
  split <;> rfl

theorem save_prompt_store_eq (st : List PromptRow) (text : String)
    (category : Option String) (ts : String) (h : ∀ r ∈ st, r.prompt_text ≠ text) :
    (save_prompt st text category ts).2
      = st.map (bumpPrompt text ts) ++ [⟨text, category, 1, some ts, ts⟩] := by
  unfold save_prompt
  have hany : st.any (fun r => r.prompt_text == text) = false := by
    simp only [List.any_eq_false]
    intro r hr
    simpa using h r hr
  simp [hany, bumpPrompt]

theorem map_bump_of_noMatch (st : List PromptRow) (text ts : String)
    (h : ∀ r ∈ st, r.prompt_text ≠ text) :
    st.map (bumpPrompt text ts) = st := by
  induction st with
  | nil => rfl
  | cons a l ih =>
    have ha : a.prompt_text ≠ text := h a (by simp)
    have hl : ∀ r ∈ l, r.prompt_text ≠ text := fun r hr => h r (by simp [hr])
    simp [bumpPrompt, ha, ih hl]

/-- C9: setting the same key twice overwrites: after `set_setting k v1` then
`set_setting k v2`, `get_setting k` returns v2; and for a key never set,
`get_setting k default` returns the default. -/
theorem setting_overwrite_and_default (st : List SettingRow)
    (k v1 v2 ts1 ts2 : String) (d : Option String)
    (h : ∀ r ∈ st, r.key ≠ k) :
    get_setting (set_setting (set_setting st k v1 ts1).2 k v2 ts2).2 k none = some v2
      ∧ get_setting st k d = d := by
  constructor
  · unfold set_setting get_setting
    have hnone : ∀ l : List SettingRow,
        (l.filter (fun r => r.key != k)).find? (fun r => r.key == k) = none := by
      intro l
      rw [List.find?_eq_none]
      intro x hx
      have := List.of_mem_filter hx
      simpa using this
    rw [List.find?_append, hnone]
    simp
  · unfold get_setting
    have hnone : st.find? (fun r => r.key == k) = none := by
      rw [List.find?_eq_none]
      intro x hx
      simpa using h x hx
    rw [hnone]

/-- Witness for C9 at a concrete store. -/
theorem setting_overwrite_and_default_witness :
    (∀ r ∈ ([] : List SettingRow), r.key ≠ "k")
      ∧ (get_setting (set_setting (set_setting [] "k" "v1" "t1").2 "k" "v2" "t2").2
            "k" none = some "v2"
          ∧ get_setting [] "k" (some "dflt") = some "dflt") :=
  ⟨by simp, setting_overwrite_and_default [] "k" "v1" "v2" "t1" "t2" (some "dflt")
    (by simp)⟩

/-- C1: starting from a store not containing prompt text p, saving p twice
leaves exactly one row whose prompt_text is p, and that row has
usage_count = 2. -/
theorem save_prompt_twice_upsert (st : List PromptRow) (p : String)
    (c1 c2 : Option String) (ts1 ts2 : String)
    (h : ∀ r ∈ st, r.prompt_text ≠ p) :
    (((save_prompt (save_prompt st p c1 ts1).2 p c2 ts2).2).filter
        (fun r => r.prompt_text == p)).length = 1
      ∧ ∀ r ∈ (save_prompt (save_prompt st p c1 ts1).2 p c2 ts2).2,
          r.prompt_text = p → r.usage_count = 2 := by
  have h1 : (save_prompt st p c1 ts1).2
      = st ++ [⟨p, c1, 1, some ts1, ts1⟩] := by
    rw [save_prompt_store_eq st p c1 ts1 h, map_bump_of_noMatch st p ts1 h]
  have hany2 : ((st ++ [⟨p, c1, 1, some ts1, ts1⟩] : List PromptRow).any
      (fun r => r.prompt_text == p)) = true := by
    simp
  have h2 : (save_prompt (save_prompt st p c1 ts1).2 p c2 ts2).2
      = st.map (bumpPrompt p ts2) ++ [⟨p, c1, 2, some ts2, ts1⟩] := by
    rw [h1]
    unfold save_prompt
    simp only [hany2, if_true, List.map_append]
    rw [map_bump_of_noMatch st p ts2 h]
    simp [bumpPrompt]
  rw [h2, map_bump_of_noMatch st p ts2 h]
  constructor
  · rw [List.filter_append]
    have : st.filter (fun r => r.prompt_text == p) = [] := by
      rw [List.filter_eq_nil_iff]
      intro r hr
      simpa using h r hr
    rw [this]
    simp
  · intro r hr hrp
    rcases List.mem_append.mp hr with hmem | hmem
    · exact absurd hrp (h r hmem)
    · simp at hmem
      rw [hmem]

/-- Witness for C1 at a concrete store and prompt. -/
theorem save_prompt_twice_upsert_witness :
    (∀ r ∈ [(⟨"other", none, 3, none, "t0"⟩ : PromptRow)], r.prompt_text ≠ "castle")
      ∧ ((((save_prompt (save_prompt [⟨"other", none, 3, none, "t0"⟩] "castle" none "t1").2
              "castle" none "t2").2).filter (fun r => r.prompt_text == "castle")).length = 1
          ∧ ∀ r ∈ (save_prompt (save_prompt [⟨"other", none, 3, none, "t0"⟩] "castle" none "t1").2
              "castle" none "t2").2, r.prompt_text = "castle" → r.usage_count = 2) :=
  ⟨by simp, save_prompt_twice_upsert [⟨"other", none, 3, none, "t0"⟩] "castle"
    none none "t1" "t2" (by simp)⟩

theorem bumpPrompt_count_ge (t ts : String) (x : PromptRow) (h : 1 ≤ x.usage_count) :
    1 ≤ (bumpPrompt t ts x).usage_count := by
  unfold bumpPrompt
  split
  · exact Nat.le_add_left 1 x.usage_count
  · exact h

theorem save_prompt_preserves_count (st : List PromptRow) (t : String)
    (c : Option String) (ts : String) (h : ∀ r ∈ st, 1 ≤ r.usage_count) :
    ∀ r ∈ (save_prompt st t c ts).2, 1 ≤ r.usage_count := by
  unfold save_prompt
  intro r hr
  simp only [List.mem_map] at hr
  obtain ⟨x, hx, hbx⟩ := hr
  subst hbx
  by_cases hany : st.any (fun r => r.prompt_text == t)
  · rw [if_pos hany] at hx
    exact bumpPrompt_count_ge t ts x (h x hx)
  · rw [if_neg hany] at hx
    rcases List.mem_append.mp hx with hmem | hmem
    · exact bumpPrompt_count_ge t ts x (h x hmem)
    · simp at hmem
      subst hmem
      simp [bumpPrompt]

theorem save_prompts_preserves_count
    (ops : List (String × Option String × String)) :
    ∀ st : List PromptRow, (∀ r ∈ st, 1 ≤ r.usage_count) →
      ∀ r ∈ save_prompts st ops, 1 ≤ r.usage_count := by
  induction ops with
  | nil =>
    intro st h
    simpa [save_prompts] using h
  | cons op rest ih =>
    intro st h
    have : save_prompts st (op :: rest)
        = save_prompts (save_prompt st op.1 op.2.1 op.2.2).2 rest := rfl
    rw [this]
    exact ih _ (save_prompt_preserves_count st op.1 op.2.1 op.2.2 h)

/-- C10: after any sequence of save_prompt calls starting from the empty
store, every stored row has usage_count at least 1; and the very first save of
a new prompt text leaves its usage_count at 1 (not at the declared column
default 0), because the insert and the increment happen in the same call. -/
theorem prompt_usage_count_invariant (ops : List (String × Option String × String))
    (st : List PromptRow) (p : String) (c : Option String) (ts : String)
    (h : ∀ r ∈ st, r.prompt_text ≠ p) :
    (∀ r ∈ save_prompts [] ops, 1 ≤ r.usage_count)
      ∧ (∀ r ∈ (save_prompt st p c ts).2, r.prompt_text = p → r.usage_count = 1) := by
  constructor
  · exact save_prompts_preserves_count ops [] (by simp)
  · intro r hr hrp
    rw [save_prompt_store_eq st p c ts h, map_bump_of_noMatch st p ts h] at hr
    rcases List.mem_append.mp hr with hmem | hmem
    · exact absurd hrp (h r hmem)
    · simp at hmem
      rw [hmem]

/-- Witness for C10 at a concrete sequence of saves and a concrete store. -/
theorem prompt_usage_count_invariant_witness :
    (∀ r ∈ [(⟨"other", none, 3, none, "t0"⟩ : PromptRow)], r.prompt_text ≠ "sunset")
      ∧ ((∀ r ∈ save_prompts []
              [("a", none, "t1"), ("a", none, "t2"), ("b", none, "t3")],
            1 ≤ r.usage_count)
          ∧ (∀ r ∈ (save_prompt [(⟨"other", none, 3, none, "t0"⟩ : PromptRow)]
                "sunset" none "t4").2,
              r.prompt_text = "sunset" → r.usage_count = 1)) :=
  ⟨by simp, prompt_usage_count_invariant
    [("a", none, "t1"), ("a", none, "t2"), ("b", none, "t3")]
    [⟨"other", none, 3, none, "t0"⟩] "sunset" none "t4" (by simp)⟩

/-! ## Conversations table (database.py, conversations: id AUTOINCREMENT,
timestamp, user_message, ollama_response, model_name, session_id, metadata) -/

structure Conversation where
  id : Nat
  timestamp : String
  user_message : String
  ollama_response : String
  model_name : String
  session_id : Option String
deriving Repr, DecidableEq

/-- Python truthiness of an optional string argument: both `None` and the
empty string are falsy (`if model_name:` in the source). -/
def truthyStr : Option String → Bool
  | none => false
  | some s => s != ""

/-- Newest-first comparison used by `ORDER BY timestamp DESC`: record `a` may
come before record `b` when the timestamp of `b` is at most that of `a`. -/
def tsDesc (a b : Conversation) : Prop := b.timestamp ≤ a.timestamp

instance : DecidableRel tsDesc := fun a b => String.decidableLE b.timestamp a.timestamp

instance : IsTotal Conversation tsDesc := ⟨fun a b => le_total b.timestamp a.timestamp⟩

instance : IsTrans Conversation tsDesc := ⟨fun _ _ _ hab hbc => le_trans hbc hab⟩

/-- `get_conversation_history` (database.py lines 110-149): when the
`model_name` argument is truthy, `SELECT ... WHERE model_name = ? ORDER BY
timestamp DESC LIMIT ?`; otherwise the same query without the WHERE clause.
An empty-string `model_name` is falsy in Python and therefore not applied as
a filter. -/
def get_conversation_history (rows : List Conversation) (limit : Nat)
    (model_name : Option String) : List Conversation :=
  let selected := if truthyStr model_name then
      rows.filter (fun r => r.model_name == model_name.getD "")
    else rows
  (selected.insertionSort tsDesc).take limit

/-! ## cleanup_old_data (database.py lines 274-293) -/

/-- A Python `datetime` value: calendar date plus the (already formatted)
time-of-day part of its ISO representation. -/
structure PyDateTime where
  year : Nat
  month : Nat
  day : Nat
  timeOfDay : String
deriving Repr, DecidableEq

def isLeapYear (y : Nat) : Bool :=
  y % 4 == 0 && (y % 100 != 0 || y % 400 == 0)

def daysInMonth (y m : Nat) : Nat :=
  if m == 2 then (if isLeapYear y then 29 else 28)
  else if m == 4 || m == 6 || m == 9 || m == 11 then 30
  else 31

/-- `datetime.replace(day=d)`: validates the new day-of-month against the
calendar (raising ValueError when it falls outside 1..days-in-month) and
leaves every other field unchanged. -/
def replaceDay (d : PyDateTime) (newDay : Int) : Except PyErr PyDateTime :=
  if 1 ≤ newDay ∧ newDay ≤ (daysInMonth d.year d.month : Int) then
    Except.ok { d with day := newDay.toNat }
  else
    Except.error PyErr.valueError

def pad2 (n : Nat) : String :=
  if n < 10 then "0" ++ toString n else toString n

def pad4 (n : Nat) : String :=
  if n < 10 then "000" ++ toString n
  else if n < 100 then "00" ++ toString n
  else if n < 1000 then "0" ++ toString n
  else toString n

/-- `datetime.isoformat()`: YYYY-MM-DDThh:mm:ss.ffffff. -/
def isoDateTime (d : PyDateTime) : String :=
  pad4 d.year ++ "-" ++ pad2 d.month ++ "-" ++ pad2 d.day ++ "T" ++ d.timeOfDay

/-- `cleanup_old_data` (database.py lines 274-293): computes the cutoff as
`datetime.now().replace(day=datetime.now().day - days_to_keep).isoformat()`
and runs `DELETE FROM conversations WHERE timestamp < ?`, returning True.
Only `sqlite3.Error` is caught; the ValueError that `replace` raises when
`day - days_to_keep` is not a valid day of the current month propagates to
the caller. -/
def cleanup_old_data (now : PyDateTime) (days_to_keep : Int)
    (rows : List Conversation) : Except PyErr (Bool × List Conversation) :=
  match replaceDay now ((now.day : Int) - days_to_keep) with
  | Except.error e => Except.error e
  | Except.ok cutoffDT =>
      let cutoff := isoDateTime cutoffDT
      Except.ok (true, rows.filter (fun r => !(decide (r.timestamp < cutoff))))

/-- C6 (amended): `get_conversation_history(limit, model_filter?)` returns at
most `limit` records, in non-increasing timestamp order, and when a nonempty
model filter is given only records with that model_name; an empty-string
filter is falsy in Python and is treated as no filter. -/
theorem history_limit_order_filter (rows : List Conversation) (limit : Nat)
    (mfilter : Option String) :
    (get_conversation_history rows limit mfilter).length ≤ limit
      ∧ (get_conversation_history rows limit mfilter).Pairwise
          (fun a b => b.timestamp ≤ a.timestamp)
      ∧ ∀ m, mfilter = some m → m ≠ "" →
          ∀ r ∈ get_conversation_history rows limit mfilter, r.model_name = m := by
  refine ⟨List.length_take_le limit _, ?_, ?_⟩
  · exact List.Pairwise.sublist (List.take_sublist limit _)
      (List.sorted_insertionSort tsDesc _)
  · intro m hm hne r hr
    subst hm
    have htruthy : truthyStr (some m) = true := by
      simpa [truthyStr] using hne
    have hunf : get_conversation_history rows limit (some m)
        = ((rows.filter (fun x => x.model_name == m)).insertionSort tsDesc).take limit := by
      unfold get_conversation_history
      rw [htruthy]
      rfl
    rw [hunf] at hr
    have hr2 := (List.take_sublist limit _).subset hr
    rw [List.mem_insertionSort] at hr2
    have := (List.mem_filter.mp hr2).2
    simpa using this

def exConvA : Conversation := ⟨1, "2026-01-01T00:00:00", "hi", "yo", "llama2", none⟩

/-- C6 counterexample: with a model filter that is the empty string, the code
ignores the filter (Python truthiness) and returns a record whose model_name
is not the filtered name, contradicting the claim read over every given
filter. -/
theorem history_empty_filter_counterexample :
    get_conversation_history [exConvA] 5 (some "") = [exConvA]
      ∧ exConvA.model_name ≠ "" := by
  exact ⟨rfl, by decide⟩

def nowOct12 : PyDateTime := ⟨2026, 10, 12, "09:00:00"⟩

def conv10d : Conversation := ⟨1, "2026-10-02T09:00:00", "u1", "r1", "llama2", none⟩

def conv40d : Conversation := ⟨2, "2026-09-02T09:00:00", "u2", "r2", "llama2", none⟩

/-- C2: the cleanup raises instead of deleting. Run on 2026-10-12 with
`days_to_keep = 30` against a 10-day-old and a 40-day-old record, the
day-of-month arithmetic `12 - 30 = -18` makes `datetime.replace` raise
ValueError, which the function does not catch (it only catches
`sqlite3.Error`), so no record is deleted and no boolean is returned. -/
theorem cleanup_old_data_raises_at_oct12 :
    cleanup_old_data nowOct12 30 [conv10d, conv40d]
      = Except.error PyErr.valueError := by
  rfl

/-! ## JSON values and a model of `json.loads` (ollama_api.py works with
line-delimited JSON; the parser below is an executable model of the standard
library decoder restricted to the shapes this code exchanges: objects,
arrays, strings, integers, booleans and null). -/

inductive Json where
  | null
  | bool (b : Bool)
  | num (n : Int)
  | str (s : String)
  | arr (elems : List Json)
  | obj (members : List (String × Json))

def braceOpen : Char := Char.ofNat 123

def braceClose : Char := Char.ofNat 125

def isWs (c : Char) : Bool :=
  c == ' ' || c == '\t' || c == '\n' || c == '\r'

def skipWs : List Char → List Char
  | [] => []
  | c :: cs => if isWs c then skipWs cs else c :: cs

def parseStringBody : Nat → List Char → List Char → Option (String × List Char)
  | 0, _, _ => none
  | _ + 1, [], _ => none
  | fuel + 1, c :: cs, acc =>
    if c == '"' then some (String.mk acc.reverse, cs)
    else if c == '\\' then
      match cs with
      | [] => none
      | e :: cs2 =>
        if e == '"' then parseStringBody fuel cs2 ('"' :: acc)
        else if e == '\\' then parseStringBody fuel cs2 ('\\' :: acc)
        else if e == '/' then parseStringBody fuel cs2 ('/' :: acc)
        else if e == 'n' then parseStringBody fuel cs2 ('\n' :: acc)
        else if e == 't' then parseStringBody fuel cs2 ('\t' :: acc)
        else if e == 'r' then parseStringBody fuel cs2 ('\r' :: acc)
        else none
    else parseStringBody fuel cs (c :: acc)

def dropExact : List Char → List Char → Option (List Char)
  | [], cs => some cs
  | _ :: _, [] => none
  | p :: ps, c :: cs => if c == p then dropExact ps cs else none

def takeDigits : List Char → Nat → Nat × List Char
  | [], acc => (acc, [])
  | c :: rest, acc =>
    if c.isDigit then takeDigits rest (acc * 10 + (c.toNat - 48))
    else (acc, c :: rest)

def parseNumAfter : List Char → Option (Nat × List Char)
  | [] => none
  | c :: rest => if c.isDigit then some (takeDigits rest (c.toNat - 48)) else none

/-- Parser mode: a single value, the elements of an array, or the members of
an object. -/
inductive PMode where
  | val
  | elems
  | members

inductive PRes where
  | v (j : Json)
  | es (elems : List Json)
  | ms (members : List (String × Json))

def parseF : Nat → PMode → List Char → Option (PRes × List Char)
  | 0, _, _ => none
  | fuel + 1, PMode.val, cs =>
    match skipWs cs with
    | [] => none
    | c :: rest =>
      if c == '"' then
        match parseStringBody (rest.length + 1) rest [] with
        | some (s, cs2) => some (PRes.v (Json.str s), cs2)
        | none => none
      else if c == 'n' then
        match dropExact ['u', 'l', 'l'] rest with
        | some cs2 => some (PRes.v Json.null, cs2)
        | none => none
      else if c == 't' then
        match dropExact ['r', 'u', 'e'] rest with
        | some cs2 => some (PRes.v (Json.bool true), cs2)
        | none => none
      else if c == 'f' then
        match dropExact ['a', 'l', 's', 'e'] rest with
        | some cs2 => some (PRes.v (Json.bool false), cs2)
        | none => none
      else if c == '-' then
        match parseNumAfter rest with
        | some (n, cs2) => some (PRes.v (Json.num (-(n : Int))), cs2)
        | none => none
      else if c.isDigit then
        match parseNumAfter (c :: rest) with
        | some (n, cs2) => some (PRes.v (Json.num (n : Int)), cs2)
        | none => none
      else if c == '[' then
        match skipWs rest with
        | ']' :: cs2 => some (PRes.v (Json.arr []), cs2)
        | cs2 =>
          match parseF fuel PMode.elems cs2 with
          | some (PRes.es elems, cs3) => some (PRes.v (Json.arr elems), cs3)
          | _ => none
      else if c == braceOpen then
        match skipWs rest with
        | [] => none
        | d :: cs2 =>
          if d == braceClose then some (PRes.v (Json.obj []), cs2)
          else
            match parseF fuel PMode.members (d :: cs2) with
            | some (PRes.ms ms, cs3) => some (PRes.v (Json.obj ms), cs3)
            | _ => none
      else none
  | fuel + 1, PMode.elems, cs =>
    match parseF fuel PMode.val cs with
    | some (PRes.v v, cs2) =>
      (match skipWs cs2 with
       | ',' :: cs3 =>
         match parseF fuel PMode.elems cs3 with
         | some (PRes.es elems, cs4) => some (PRes.es (v :: elems), cs4)
         | _ => none
       | ']' :: cs3 => some (PRes.es [v], cs3)
       | _ => none)
    | _ => none
  | fuel + 1, PMode.members, cs =>
    match skipWs cs with
    | [] => none
    | c :: rest =>
      if c == '"' then
        match parseStringBody (rest.length + 1) rest [] with
        | some (k, cs2) =>
          (match skipWs cs2 with
           | ':' :: cs3 =>
             (match parseF fuel PMode.val cs3 with
              | some (PRes.v v, cs4) =>
                (match skipWs cs4 with
                 | [] => none
                 | d :: cs5 =>
                   if d == ',' then
                     match parseF fuel PMode.members cs5 with
                     | some (PRes.ms ms, cs6) => some (PRes.ms ((k, v) :: ms), cs6)
                     | _ => none
                   else if d == braceClose then some (PRes.ms [(k, v)], cs5)
                   else none)
              | _ => none)
           | _ => none)
        | none => none
      else none

/-- Model of `json.loads` on one line: parse a single JSON value, allowing
surrounding whitespace and rejecting trailing input; `none` models a raised
`json.JSONDecodeError`. -/
def Json.parse (s : String) : Option Json :=
  match parseF (2 * s.length + 4) PMode.val s.toList with
  | some (PRes.v j, rest) => if (skipWs rest).isEmpty then some j else none
  | _ => none

/-- Lookup of an object member by key; the LAST binding wins, matching the
behaviour of a Python dict built by `json.loads` from duplicate keys. -/
def lookupMember : List (String × Json) → String → Option Json
  | [], _ => none
  | (k2, v) :: rest, k =>
    match lookupMember rest k with
    | some r => some r
    | none => if k2 == k then some v else none

def Json.isObj : Json → Bool
  | Json.obj _ => true
  | _ => false

def listIsInfix (needle : List Char) : List Char → Bool
  | [] => needle.isEmpty
  | c :: rest => needle.isPrefixOf (c :: rest) || listIsInfix needle rest

/-- Python `needle in hay` on strings: substring containment. -/
def strContainsSub (hay needle : String) : Bool :=
  listIsInfix needle.toList hay.toList

/-- Python `key in x`: key lookup on a dict, substring test on a string,
element test on a list, TypeError on anything else (int, float, bool,
None). -/
def pyContains (k : String) : Json → Except PyErr Bool
  | Json.obj ms => Except.ok (ms.any (fun m => m.1 == k))
  | Json.str s => Except.ok (strContainsSub s k)
  | Json.arr xs => Except.ok (xs.any (fun x =>
      match x with
      | Json.str t => t == k
      | _ => false))
  | _ => Except.error PyErr.typeError

/-- Python `x[key]` with a string key: member lookup on a dict (KeyError when
absent), TypeError on anything else. -/
def pySubscript : Json → String → Except PyErr Json
  | Json.obj ms, k =>
    (match lookupMember ms k with
     | some v => Except.ok v
     | none => Except.error PyErr.keyError)
  | _, _ => Except.error PyErr.typeError

/-- `_stream_response` (ollama_api.py lines 61-68): for each line, skip it
when empty, otherwise parse it as JSON and yield the value; a
JSONDecodeError is caught and the line skipped. -/
def stream_response (lines : List String) : List Json :=
  lines.filterMap (fun l => if l == "" then none else Json.parse l)

/-- `_chat_stream` (ollama_api.py lines 130-134) consuming a chunk sequence:
for each chunk with a `message` member that has a `content` member, yield
the content member of its message member. The result pairs the yielded
fragments with the Python exception, if any, that aborts the generator (the
membership test `"message" in chunk` raises TypeError on a non-container
chunk). -/
def chat_stream_chunks : List Json → List Json × Option PyErr
  | [] => ([], none)
  | c :: rest =>
    match pyContains "message" c with
    | Except.error e => ([], some e)
    | Except.ok false => chat_stream_chunks rest
    | Except.ok true =>
      match pySubscript c "message" with
      | Except.error e => ([], some e)
      | Except.ok m =>
        match pyContains "content" m with
        | Except.error e => ([], some e)
        | Except.ok false => chat_stream_chunks rest
        | Except.ok true =>
          match pySubscript m "content" with
          | Except.error e => ([], some e)
          | Except.ok v =>
            let tl := chat_stream_chunks rest
            (v :: tl.1, tl.2)

/-- The streamed fragments a consumer of `chat(..., stream=True)` sees for a
given response body, together with the aborting exception if one occurs. -/
def chat_stream_lines (lines : List String) : List Json × Option PyErr :=
  chat_stream_chunks (stream_response lines)

/-- The fragment sequence the specification describes: the `message.content`
member of every line that parses as JSON and has that member. -/
def specFragments (lines : List String) : List Json :=
  lines.filterMap (fun l => (Json.parse l).bind (fun j =>
    (match j with
     | Json.obj ms => lookupMember ms "message"
     | _ => none).bind (fun m =>
      match m with
      | Json.obj ms2 => lookupMember ms2 "content"
      | _ => none)))

/-- A chunk on which the Python membership tests cannot raise: a JSON object
whose `message` member, when present, is itself an object. -/
def goodChunk : Json → Bool
  | Json.obj ms =>
    (match lookupMember ms "message" with
     | some v => v.isObj
     | none => true)
  | _ => false

theorem lookupMember_isSome_eq_any (ms : List (String × Json)) (k : String) :
    (lookupMember ms k).isSome = ms.any (fun m => m.1 == k) := by
  induction ms with
  | nil => rfl
  | cons hd tl ih =>
    cases hd with
    | mk k2 v =>
      simp only [lookupMember, List.any_cons]
      cases htl : lookupMember tl k with
      | some r =>
        rw [htl] at ih
        simp [← ih]
      | none =>
        rw [htl] at ih
        by_cases hk : (k2 == k) = true
        · simp [hk]
        · simp only [Bool.not_eq_true] at hk
          simp [hk, ← ih]

/-- C5 (amended): for every streaming chat response body in which each line
that parses as JSON is an object whose `message` member, when present, is
itself an object, the streamed fragment sequence equals, in order, the
`message.content` member of each line that has that member; unparseable lines
are skipped without aborting the stream. (Without that proviso the claim
fails: a line that parses to a non-object JSON value makes the membership
test raise TypeError and abort the stream.) -/
theorem chat_stream_matches_spec (lines : List String)
    (h : ∀ l ∈ lines, ∀ j, Json.parse l = some j → goodChunk j = true) :
    chat_stream_lines lines = (specFragments lines, none) := by
  induction lines with
  | nil => rfl
  | cons l rest ih =>
    have hrest : ∀ l2 ∈ rest, ∀ j, Json.parse l2 = some j → goodChunk j = true :=
      fun l2 hl2 => h l2 (List.mem_cons_of_mem l hl2)
    have ihr := ih hrest
    by_cases hb : l = ""
    · subst hb
      exact ihr
    · have hbeq : (l == "") = false := by
        simpa using hb
      cases hparse : Json.parse l with
      | none =>
        have e1 : chat_stream_lines (l :: rest) = chat_stream_lines rest := by
          simp [chat_stream_lines, stream_response, List.filterMap_cons, hbeq, hparse]
        have e2 : specFragments (l :: rest) = specFragments rest := by
          simp [specFragments, List.filterMap_cons, hparse]
        rw [e1, e2]
        exact ihr
      | some j =>
        have hgood := h l (List.mem_cons_self l rest) j hparse
        cases j with
        | null => simp [goodChunk] at hgood
        | bool b => simp [goodChunk] at hgood
        | num n => simp [goodChunk] at hgood
        | str s => simp [goodChunk] at hgood
        | arr xs => simp [goodChunk] at hgood
        | obj ms =>
          have hsr : stream_response (l :: rest) = Json.obj ms :: stream_response rest := by
            simp [stream_response, List.filterMap_cons, hb, hparse]
          cases hlm : lookupMember ms "message" with
          | none =>
            have hany : (ms.any fun m => m.1 == "message") = false := by
              rw [← lookupMember_isSome_eq_any, hlm]
              rfl
            have e1 : chat_stream_lines (l :: rest) = chat_stream_lines rest := by
              simp [chat_stream_lines, hsr, chat_stream_chunks, pyContains, hany]
            have e2 : specFragments (l :: rest) = specFragments rest := by
              simp [specFragments, List.filterMap_cons, hparse, hlm]
            rw [e1, e2]
            exact ihr
          | some m =>
            have hany : (ms.any fun m => m.1 == "message") = true := by
              rw [← lookupMember_isSome_eq_any, hlm]
              rfl
            simp only [goodChunk] at hgood
            rw [hlm] at hgood
            cases m with
            | null => simp [Json.isObj] at hgood
            | bool b => simp [Json.isObj] at hgood
            | num n => simp [Json.isObj] at hgood
            | str s => simp [Json.isObj] at hgood
            | arr xs => simp [Json.isObj] at hgood
            | obj ms2 =>
              cases hlc : lookupMember ms2 "content" with
              | none =>
                have hany2 : (ms2.any fun m => m.1 == "content") = false := by
                  rw [← lookupMember_isSome_eq_any, hlc]
                  rfl
                have e1 : chat_stream_lines (l :: rest) = chat_stream_lines rest := by
                  simp [chat_stream_lines, hsr, chat_stream_chunks, pyContains,
                    pySubscript, hany, hany2, hlm]
                have e2 : specFragments (l :: rest) = specFragments rest := by
                  simp [specFragments, List.filterMap_cons, hparse, hlm, hlc]
                rw [e1, e2]
                exact ihr
              | some w =>
                have hany2 : (ms2.any fun m => m.1 == "content") = true := by
                  rw [← lookupMember_isSome_eq_any, hlc]
                  rfl
                have e1 : chat_stream_lines (l :: rest)
                    = (w :: (chat_stream_lines rest).1, (chat_stream_lines rest).2) := by
                  simp [chat_stream_lines, hsr, chat_stream_chunks, pyContains,
                    pySubscript, hany, hany2, hlm, hlc]
                have e2 : specFragments (l :: rest) = w :: specFragments rest := by
                  simp [specFragments, List.filterMap_cons, hparse, hlm, hlc]
                rw [e1, e2, ihr]

def lineHel : String := "\x7b\"message\":\x7b\"content\":\"Hel\"\x7d\x7d"

def lineLo : String := "\x7b\"message\":\x7b\"content\":\"lo\"\x7d\x7d"

/-- C5 counterexample: a line that parses as the JSON number 5 has no
`message.content` member, so per the claim it should simply be skipped; the
code instead evaluates `"message" in 5`, which raises TypeError and aborts
the generator, losing the fragment of the following line. -/
theorem chat_stream_abort_counterexample :
    chat_stream_lines [lineHel, "5", lineLo] = ([Json.str "Hel"], some PyErr.typeError)
      ∧ specFragments [lineHel, "5", lineLo] = [Json.str "Hel", Json.str "lo"]
      ∧ chat_stream_lines [lineHel, "5", lineLo]
          ≠ (specFragments [lineHel, "5", lineLo], none) := by
  refine ⟨rfl, rfl, ?_⟩
  intro hcontra
  have h1 : chat_stream_lines [lineHel, "5", lineLo]
      = ([Json.str "Hel"], some PyErr.typeError) := rfl
  rw [h1] at hcontra
  exact Option.noConfusion (congrArg Prod.snd hcontra)

/-- Witness for the amended C5 at the example stream from the specification:
the garbage line is skipped and the fragments are "Hel" then "lo". -/
theorem chat_stream_matches_spec_witness :
    (∀ l ∈ [lineHel, "garbage", lineLo], ∀ j, Json.parse l = some j → goodChunk j = true)
      ∧ chat_stream_lines [lineHel, "garbage", lineLo]
          = (specFragments [lineHel, "garbage", lineLo], none)
      ∧ specFragments [lineHel, "garbage", lineLo] = [Json.str "Hel", Json.str "lo"] := by
  have hgoodlines : ∀ l ∈ [lineHel, "garbage", lineLo], ∀ j,
      Json.parse l = some j → goodChunk j = true := by
    intro l hl j hj
    rcases List.mem_cons.mp hl with rfl | hl2
    · rw [show Json.parse lineHel
          = some (Json.obj [("message", Json.obj [("content", Json.str "Hel")])]) from rfl] at hj
      injection hj with hj2
      rw [← hj2]
      rfl
    rcases List.mem_cons.mp hl2 with rfl | hl3
    · rw [show Json.parse "garbage" = none from rfl] at hj
      exact Option.noConfusion hj
    rcases List.mem_cons.mp hl3 with rfl | hl4
    · rw [show Json.parse lineLo
          = some (Json.obj [("message", Json.obj [("content", Json.str "lo")])]) from rfl] at hj
      injection hj with hj2
      rw [← hj2]
      rfl
    · exact absurd hl4 (List.not_mem_nil l)
  exact ⟨hgoodlines, chat_stream_matches_spec [lineHel, "garbage", lineLo] hgoodlines, rfl⟩

/-! ## OllamaAPI transport model (ollama_api.py, _make_request lines 27-59) -/

/-- Outcome of one HTTP exchange attempted by the requests session. -/
inductive ReqOutcome where
  | success (body : Json)
  | connectionFailed
  | timedOut
  | httpStatus (code : Nat) (body : String)

/-- The Ollama server as seen through the requests session: what each GET and
each POST would produce. -/
structure Server where
  get : String → ReqOutcome
  post : String → Option Json → ReqOutcome

/-- How `_make_request` turns a transport outcome into a result or a raised
exception: `raise_for_status` plus the except clauses of lines 52-59
(ConnectionError, Timeout, HTTPError re-raised as RuntimeError, anything else
re-raised as RuntimeError). -/
def handleOutcome : ReqOutcome → Except PyErr Json
  | ReqOutcome.success j => Except.ok j
  | ReqOutcome.connectionFailed => Except.error PyErr.connectionError
  | ReqOutcome.timedOut => Except.error PyErr.timeoutError
  | ReqOutcome.httpStatus _ _ => Except.error PyErr.runtimeError

/-- Python `str.upper()` (ASCII, as used on HTTP method names). -/
def strUpper (s : String) : String :=
  String.mk (s.toList.map Char.toUpper)

/-- Python `str.lower()` (ASCII, as used on model and prompt names). -/
def strLower (s : String) : String :=
  String.mk (s.toList.map Char.toLower)

/-- `_make_request` (ollama_api.py lines 27-59): dispatches on
`method.upper()`; only GET and POST are implemented, any other method makes
the function raise ValueError inside its own try block, which the final
`except Exception` clause converts into RuntimeError("Unexpected error"). -/
def make_request (srv : Server) (endpoint : String) (method : String)
    (data : Option Json) : Except PyErr Json :=
  if strUpper method == "GET" then handleOutcome (srv.get endpoint)
  else if strUpper method == "POST" then handleOutcome (srv.post endpoint data)
  else Except.error PyErr.runtimeError

/-- `delete_model` (ollama_api.py lines 189-197): calls
`_make_request` with endpoint /api/delete and method DELETE, and maps any
exception to False. -/
def delete_model (srv : Server) (model_name : String) : Bool :=
  match make_request srv "/api/delete" "DELETE"
      (some (Json.obj [("name", Json.str model_name)])) with
  | Except.ok _ => true
  | Except.error _ => false

/-- C3: `delete_model` can never report success. Its own `_make_request`
supports only GET and POST and raises on the method string DELETE before any
request reaches the server, so the wrapper returns False for every server
behaviour and every model name, including a server that would have deleted
the model. -/
theorem delete_model_always_false (srv : Server) (model_name : String) :
    delete_model srv model_name = false := rfl

/-- A server on which every request succeeds with an empty JSON object: even
against it, `delete_model` reports failure. -/
theorem delete_model_false_on_healthy_server :
    delete_model ⟨fun _ => ReqOutcome.success (Json.obj []),
      fun _ _ => ReqOutcome.success (Json.obj [])⟩ "llama2" = false := rfl

/-- Python `dict.get(key, default)` on a decoded JSON response; on a non-dict
it would raise AttributeError. -/
def pyDictGet (j : Json) (k : String) (default : Json) : Except PyErr Json :=
  match j with
  | Json.obj ms =>
    (match lookupMember ms k with
     | some v => Except.ok v
     | none => Except.ok default)
  | _ => Except.error PyErr.attributeError

def embedPayload (text model : String) : Json :=
  Json.obj [("model", Json.str model), ("prompt", Json.str text)]

/-- `embed` (ollama_api.py lines 166-174): posts to /api/embeddings and
returns the embedding member of the response, defaulting to the empty
sequence when absent. There is no try/except in this
method, so whatever `_make_request` raises propagates to the caller. -/
def embed (srv : Server) (text model : String) : Except PyErr Json :=
  match make_request srv "/api/embeddings" "POST" (some (embedPayload text model)) with
  | Except.error e => Except.error e
  | Except.ok resp => pyDictGet resp "embedding" (Json.arr [])

/-- A server that is unreachable: every request fails with a connection
error. -/
def srvDown : Server :=
  ⟨fun _ => ReqOutcome.connectionFailed, fun _ _ => ReqOutcome.connectionFailed⟩

/-- C4 counterexample: against an unreachable server, `embed` raises the
connection error instead of returning the empty sequence. -/
theorem embed_raises_counterexample :
    embed srvDown "hello" "llama2" = Except.error PyErr.connectionError
      ∧ embed srvDown "hello" "llama2" ≠ Except.ok (Json.arr []) := by
  refine ⟨rfl, ?_⟩
  intro hcontra
  have h1 : embed srvDown "hello" "llama2" = Except.error PyErr.connectionError := rfl
  rw [h1] at hcontra
  exact Except.noConfusion hcontra

/-- C4 (amended): `embed` propagates the failure of the underlying request to
the caller (it raises rather than returning the empty sequence); the empty
sequence is only ever the default for a successful response without an
`embedding` member. -/
theorem embed_error_propagation (srv : Server) (text model : String) (e : PyErr)
    (h : handleOutcome (srv.post "/api/embeddings" (some (embedPayload text model)))
        = Except.error e) :
    embed srv text model = Except.error e := by
  have hmr : make_request srv "/api/embeddings" "POST" (some (embedPayload text model))
      = handleOutcome (srv.post "/api/embeddings" (some (embedPayload text model))) := rfl
  unfold embed
  rw [hmr, h]

/-- Witness for the amended C4 at the unreachable server. -/
theorem embed_error_propagation_witness :
    (handleOutcome (srvDown.post "/api/embeddings"
        (some (embedPayload "a cat" "llama2"))) = Except.error PyErr.connectionError)
      ∧ embed srvDown "a cat" "llama2" = Except.error PyErr.connectionError :=
  ⟨rfl, embed_error_propagation srvDown "a cat" "llama2" PyErr.connectionError rfl⟩

/-! ## chat message assembly (ollama_api.py lines 92-128) -/

structure ChatMsg where
  role : String
  content : String
deriving Repr, DecidableEq

/-- Python truthiness of an optional list argument: `None` and the empty list
are both falsy (`if conversation_history:` in the source). -/
def truthyList : Option (List ChatMsg) → Bool
  | none => false
  | some l => !l.isEmpty

/-- The message list `chat` builds (ollama_api.py lines 98-116): start empty;
append a system message when `system_prompt` is truthy; extend with
`conversation_history` when truthy; append the user message. -/
def chatMessages (message : String) (system_prompt : Option String)
    (conversation_history : Option (List ChatMsg)) : List ChatMsg :=
  let messages : List ChatMsg := []
  let messages := if truthyStr system_prompt then
      messages ++ [⟨"system", system_prompt.getD ""⟩]
    else messages
  let messages := if truthyList conversation_history then
      messages ++ conversation_history.getD []
    else messages
  messages ++ [⟨"user", message⟩]

/-- The ordering the amended claim describes: system message first when a
NONEMPTY system prompt is provided, then the given history in order, then the
user message. -/
def specChatMessages (message : String) (system_prompt : Option String)
    (conversation_history : Option (List ChatMsg)) : List ChatMsg :=
  (match system_prompt with
   | some s => if s = "" then [] else [⟨"system", s⟩]
   | none => []) ++ conversation_history.getD [] ++ [⟨"user", message⟩]

/-- C8 (amended): the submitted message list is the system message first when
a nonempty system_prompt is provided (an empty-string prompt is falsy in
Python and is dropped), then the prior history entries in their given order,
then the new user message last; absent parts contribute nothing. -/
theorem chat_message_order (message : String) (system_prompt : Option String)
    (conversation_history : Option (List ChatMsg)) :
    chatMessages message system_prompt conversation_history
      = specChatMessages message system_prompt conversation_history := by
  unfold chatMessages specChatMessages
  cases system_prompt with
  | none =>
    cases conversation_history with
    | none => rfl
    | some hist =>
      cases hist with
      | nil => rfl
      | cons a l => simp [truthyStr, truthyList]
  | some s =>
    by_cases hs : s = ""
    · subst hs
      cases conversation_history with
      | none => rfl
      | some hist =>
        cases hist with
        | nil => rfl
        | cons a l => simp [truthyStr, truthyList]
    · have hts : truthyStr (some s) = true := by
        simpa [truthyStr] using hs
      cases conversation_history with
      | none => simp [hts, truthyList, hs]
      | some hist =>
        cases hist with
        | nil => simp [hts, truthyList, hs]
        | cons a l => simp [hts, truthyList, hs]

/-- C8 counterexample: with an empty-string system prompt, the claim as
stated puts a system message first; the code drops it (Python truthiness)
and submits only the user message. -/
theorem chat_empty_system_prompt_counterexample :
    chatMessages "hi" (some "") none = [⟨"user", "hi"⟩]
      ∧ ((chatMessages "hi" (some "") none).all (fun m => m.role != "system")) = true :=
  ⟨rfl, rfl⟩

/-! ## get_model_suggestions (ollama_api.py lines 238-251) -/

/-- `model_name.split(':')[0]`: the part of the model name before the first
colon. -/
def base_name (model_name : String) : String :=
  String.mk (model_name.toList.takeWhile (fun c => c != ':'))

/-- One iteration of the loop in `get_model_suggestions`: when the lowercased
partial name occurs in the lowercased model name, append the base name unless
it is already collected. -/
def suggStep (partial_name : String) (acc : List String) (model_name : String) :
    List String :=
  if strContainsSub (strLower model_name) (strLower partial_name) then
    (if acc.contains (base_name model_name) then acc
     else acc ++ [base_name model_name])
  else acc

/-- `get_model_suggestions` (ollama_api.py lines 238-251) applied to the
names reported by the server: collect base names of matching models without
duplicates, then `return sorted(suggestions)`. -/
def get_model_suggestions (modelNames : List String) (partial_name : String) :
    List String :=
  (modelNames.foldl (suggStep partial_name) []).insertionSort (· ≤ ·)

theorem suggStep_foldl_mem (p : String) (ms : List String) :
    ∀ (acc : List String) (b : String),
      b ∈ ms.foldl (suggStep p) acc
        ↔ b ∈ acc ∨ ∃ n ∈ ms,
            strContainsSub (strLower n) (strLower p) = true ∧ base_name n = b := by
  induction ms with
  | nil =>
    intro acc b
    simp
  | cons m rest ih =>
    intro acc b
    rw [List.foldl_cons, ih]
    unfold suggStep
    by_cases hc : strContainsSub (strLower m) (strLower p) = true
    · rw [if_pos hc]
      by_cases hmem : acc.contains (base_name m) = true
      · rw [if_pos hmem]
        have hbmem : base_name m ∈ acc := by
          simpa [List.contains] using hmem
        constructor
        · rintro (hacc | ⟨n, hn, hcn, hbn⟩)
          · exact Or.inl hacc
          · exact Or.inr ⟨n, List.mem_cons_of_mem m hn, hcn, hbn⟩
        · rintro (hacc | ⟨n, hn, hcn, hbn⟩)
          · exact Or.inl hacc
          · rcases List.mem_cons.mp hn with rfl | hn2
            · exact Or.inl (hbn ▸ hbmem)
            · exact Or.inr ⟨n, hn2, hcn, hbn⟩
      · rw [if_neg hmem]
        constructor
        · rintro (hacc | ⟨n, hn, hcn, hbn⟩)
          · rcases List.mem_append.mp hacc with h1 | h1
            · exact Or.inl h1
            · refine Or.inr ⟨m, List.mem_cons_self m rest, hc, ?_⟩
              exact (List.mem_singleton.mp h1).symm
          · exact Or.inr ⟨n, List.mem_cons_of_mem m hn, hcn, hbn⟩
        · rintro (hacc | ⟨n, hn, hcn, hbn⟩)
          · exact Or.inl (List.mem_append_left _ hacc)
          · rcases List.mem_cons.mp hn with rfl | hn2
            · exact Or.inl (List.mem_append_right _ (by simpa using hbn.symm))
            · exact Or.inr ⟨n, hn2, hcn, hbn⟩
    · rw [if_neg hc]
      constructor
      · rintro (hacc | ⟨n, hn, hcn, hbn⟩)
        · exact Or.inl hacc
        · exact Or.inr ⟨n, List.mem_cons_of_mem m hn, hcn, hbn⟩
      · rintro (hacc | ⟨n, hn, hcn, hbn⟩)
        · exact Or.inl hacc
        · rcases List.mem_cons.mp hn with rfl | hn2
          · exact absurd hcn hc
          · exact Or.inr ⟨n, hn2, hcn, hbn⟩

theorem suggStep_foldl_nodup (p : String) (ms : List String) :
    ∀ acc : List String, acc.Nodup → (ms.foldl (suggStep p) acc).Nodup := by
  induction ms with
  | nil =>
    intro acc h
    simpa using h
  | cons m rest ih =>
    intro acc h
    rw [List.foldl_cons]
    apply ih
    unfold suggStep
    by_cases hc : strContainsSub (strLower m) (strLower p) = true
    · rw [if_pos hc]
      by_cases hmem : acc.contains (base_name m) = true
      · rw [if_pos hmem]
        exact h
      · rw [if_neg hmem]
        have hnot : base_name m ∉ acc := by
          intro hin
          exact hmem (by simpa [List.contains] using hin)
        rw [List.nodup_append]
        exact ⟨h, List.nodup_singleton _, by
          intro a ha ha2
          rw [List.mem_singleton.mp ha2] at ha
          exact hnot ha⟩
    · rw [if_neg hc]
      exact h

/-- C7: `get_model_suggestions(partial)` returns exactly the base names
(portion before the first colon) of the models whose full name contains
`partial` as a case-insensitive substring, de-duplicated and sorted
ascending. -/
theorem model_suggestions_spec (modelNames : List String) (partial_name : String) :
    (get_model_suggestions modelNames partial_name).Sorted (· ≤ ·)
      ∧ (get_model_suggestions modelNames partial_name).Nodup
      ∧ ∀ b, b ∈ get_model_suggestions modelNames partial_name
          ↔ ∃ n ∈ modelNames,
              strContainsSub (strLower n) (strLower partial_name) = true
                ∧ base_name n = b := by
  refine ⟨List.sorted_insertionSort _ _, ?_, ?_⟩
  · exact ((List.perm_insertionSort _ _).nodup_iff).mpr
      (suggStep_foldl_nodup partial_name modelNames [] (by simp))
  · intro b
    rw [show get_model_suggestions modelNames partial_name
        = (modelNames.foldl (suggStep partial_name) []).insertionSort (· ≤ ·) from rfl]
    rw [(List.perm_insertionSort _ _).mem_iff, suggStep_foldl_mem]
    simp

end OllamaExt
